import Mathlib

/-!
# Verification of the meter-share-calculator bill allocation

A shallow embedding of `src/components/MeterCalculator.tsx`: the reading
store (an ordered list of tenant records with add / remove / update
operations) and the bill-allocation engine (per-tenant usage, unaccounted
units, equal bonus split, final units, bills and percentages).

JavaScript numbers are modelled as exact rationals.  The idiom
`parseFloat(x.toFixed(2))` is modelled by `round2`: `toFixed` picks the
closest 2-decimal representation, breaking ties towards the larger value,
which is exactly Mathlib `round` (round half towards plus infinity) scaled
by 100.  Division is total on rationals; where the claim under study is
about the JavaScript behaviour of division by zero (Infinity / NaN), a
second embedding `resultsJS` tracks finiteness with `Option ℚ`, `none`
standing for any non-finite value.
-/

namespace MeterShare

/-- One row of the reading store, `interface TenantReading` (lines 14-19). -/
structure TenantReading where
  id : String
  name : String
  previous : ℚ
  current : ℚ
deriving DecidableEq, Repr

/-- One derived output row, `interface CalculationResult` (lines 21-28). -/
structure CalculationResult where
  name : String
  used : ℚ
  bonus : ℚ
  finalUnits : ℚ
  bill : ℚ
  percentage : ℚ
deriving DecidableEq, Repr

/-- A user-facing toast notification, as passed to `toast({...})`. -/
structure Toast where
  title : String
  description : String
  variant : Option String
deriving DecidableEq, Repr

/-- Model of `parseFloat(x.toFixed(2))`: round to 2 decimal places, ties
towards the larger value (the JavaScript `toFixed` tie-breaking rule). -/
def round2 (x : ℚ) : ℚ := (round (100 * x) : ℤ) / 100

/-- Line 66: `const unitPrice = totalAmount / totalUnits`. -/
def unitPrice (totalUnits totalAmount : ℚ) : ℚ := totalAmount / totalUnits

/-- Lines 68-71: the `used` field attached to each reading,
`parseFloat((r.current - r.previous).toFixed(2))`. -/
def usedOf (r : TenantReading) : ℚ := round2 (r.current - r.previous)

/-- Line 73: `usage.reduce((acc, r) => acc + r.used, 0)`. -/
def totalUsed (readings : List TenantReading) : ℚ :=
  (readings.map usedOf).sum

/-- Line 74: `parseFloat((totalUnits - totalUsed).toFixed(2))`. -/
def unaccounted (readings : List TenantReading) (totalUnits : ℚ) : ℚ :=
  round2 (totalUnits - totalUsed readings)

/-- Line 75: `parseFloat((unaccounted / usage.length).toFixed(2))`. -/
def bonusPerTenant (readings : List TenantReading) (totalUnits : ℚ) : ℚ :=
  round2 (unaccounted readings totalUnits / (readings.length : ℚ))

/-- Lines 77-89: the derived result rows rendered in the results table. -/
def results (readings : List TenantReading) (totalUnits totalAmount : ℚ) :
    List CalculationResult :=
  readings.map fun r =>
    let used := usedOf r
    let finalUnits := used + bonusPerTenant readings totalUnits
    let share := finalUnits / totalUnits
    let bill := share * totalAmount
    { name := r.name
      used := used
      bonus := bonusPerTenant readings totalUnits
      finalUnits := round2 finalUnits
      bill := round2 bill
      percentage := round2 (share * 100) }

/-- JavaScript division with finiteness tracked: dividing by zero yields
Infinity or NaN, both modelled as `none`; non-finite values propagate
through subsequent arithmetic and `toFixed`. -/
def jsDiv (a b : ℚ) : Option ℚ := if b = 0 then none else some (a / b)

/-- Line 66 under the finiteness-tracking embedding. -/
def unitPriceJS (totalUnits totalAmount : ℚ) : Option ℚ :=
  jsDiv totalAmount totalUnits

/-- A result row under the finiteness-tracking embedding: the fields
computed through the `share = finalUnits / totalUnits` division can be
non-finite. -/
structure CalculationResultJS where
  name : String
  used : ℚ
  bonus : ℚ
  finalUnits : ℚ
  bill : Option ℚ
  percentage : Option ℚ
deriving DecidableEq, Repr

/-- Lines 77-89 under the finiteness-tracking embedding. -/
def resultsJS (readings : List TenantReading) (totalUnits totalAmount : ℚ) :
    List CalculationResultJS :=
  readings.map fun r =>
    let used := usedOf r
    let finalUnits := used + bonusPerTenant readings totalUnits
    let share := jsDiv finalUnits totalUnits
    { name := r.name
      used := used
      bonus := bonusPerTenant readings totalUnits
      finalUnits := round2 finalUnits
      bill := share.map fun s => round2 (s * totalAmount)
      percentage := share.map fun s => round2 (s * 100) }

/-- Lines 42-45: `addTenant` appends a row whose id is
`Date.now().toString()` — the current clock value is an input here — and
whose name is "Tenant X" with X = `String.fromCharCode(65 + readings.length)`. -/
def addTenant (readings : List TenantReading) (now : Nat) :
    List TenantReading :=
  readings ++
    [{ id := toString now
       name := "Tenant ".push (Char.ofNat (65 + readings.length))
       previous := 0
       current := 0 }]

/-- Lines 47-57: `removeTenant` filters out every row with the given id
when more than one row is present, and otherwise reports a toast and
leaves the store unchanged. -/
def removeTenant (readings : List TenantReading) (tid : String) :
    List TenantReading × Option Toast :=
  if readings.length > 1 then
    (readings.filter fun r => r.id ≠ tid, none)
  else
    (readings,
      some { title := "Cannot remove tenant"
             description := "At least one tenant is required."
             variant := some "destructive" })

/-- A field/value pair for `updateReading` (`field: keyof TenantReading`,
`value: string | number`); the TypeScript key indexes which field the
spread `{ ...r, [field]: value }` replaces. -/
inductive FieldUpdate where
  | setId (v : String)
  | setName (v : String)
  | setPrevious (v : ℚ)
  | setCurrent (v : ℚ)
deriving DecidableEq, Repr

/-- The field replacement `{ ...r, [field]: value }` (line 61). -/
def applyUpdate (u : FieldUpdate) (r : TenantReading) : TenantReading :=
  match u with
  | .setId v => { r with id := v }
  | .setName v => { r with name := v }
  | .setPrevious v => { r with previous := v }
  | .setCurrent v => { r with current := v }

/-- Lines 59-63: `updateReading` maps over the store, replacing one field
of every row whose id matches. -/
def updateReading (readings : List TenantReading) (tid : String)
    (u : FieldUpdate) : List TenantReading :=
  readings.map fun r => if r.id = tid then applyUpdate u r else r

/-- Lines 34-37: the initial reading store. -/
def initialReadings : List TenantReading :=
  [{ id := "1", name := "Tenant A", previous := 97.87, current := 126.95 },
   { id := "2", name := "Tenant B", previous := 155.3, current := 175.4 }]

/-- Concrete stores used to instantiate the theorems below. -/
def soleTenantStore : List TenantReading :=
  [{ id := "1", name := "Tenant A", previous := 0, current := 0 }]

/-- Three tenants with usage 0.01 each; against 0.02 purchased units the
unaccounted value is -0.01 and the equal split rounds to zero. -/
def overReportStore : List TenantReading :=
  [{ id := "1", name := "Tenant A", previous := 0, current := 0.01 },
   { id := "2", name := "Tenant B", previous := 0, current := 0.01 },
   { id := "3", name := "Tenant C", previous := 0, current := 0.01 }]

/-- A single tenant with no metered usage, used against 0.015 purchased
units to exercise the bill-reconciliation bound. -/
def zeroUsageStore : List TenantReading :=
  [{ id := "1", name := "Tenant A", previous := 0, current := 0 }]

/-- Two rows that share an identity, as two `addTenant` calls in the same
millisecond would produce. -/
def duplicateIdStore : List TenantReading :=
  [{ id := "7", name := "Tenant A", previous := 0, current := 0 },
   { id := "7", name := "Tenant B", previous := 0, current := 0 }]

/-- A store whose sole id collides with the string form of clock value 0. -/
def clashStore : List TenantReading :=
  [{ id := "0", name := "Tenant A", previous := 0, current := 0 }]

/-! ## Helper lemmas -/

/-- Rounding to 2 decimals moves a value by at most 1/200. -/
theorem round2_err (y : ℚ) : |round2 y - y| ≤ 1 / 200 := by
  have h := abs_sub_round (100 * y)
  rw [abs_sub_comm] at h
  have h2 : round2 y - y = ((round (100 * y) : ℚ) - 100 * y) / 100 := by
    unfold round2; ring
  rw [h2, abs_div, abs_of_pos (show (0 : ℚ) < 100 by norm_num)]
  linarith

/-- Rounding to 2 decimals fixes integer multiples of 1/100. -/
theorem round2_int_div (k : ℤ) : round2 ((k : ℚ) / 100) = (k : ℚ) / 100 := by
  unfold round2
  have h : (100 : ℚ) * ((k : ℚ) / 100) = (k : ℚ) := by ring
  rw [h, round_intCast]

/-- The sum of two already-rounded values is unchanged by re-rounding. -/
theorem round2_add_round2 (a b : ℚ) :
    round2 (round2 a + round2 b) = round2 a + round2 b := by
  have h : round2 a + round2 b =
      ((round (100 * a) + round (100 * b) : ℤ) : ℚ) / 100 := by
    unfold round2; push_cast; ring
  rw [h, round2_int_div, ← h]

/-- Rounding a nonpositive value to 2 decimals stays nonpositive. -/
theorem round2_nonpos {y : ℚ} (h : y ≤ 0) : round2 y ≤ 0 := by
  unfold round2
  rw [round_eq]
  have h2 : ⌊100 * y + 1 / 2⌋ < (1 : ℤ) := Int.floor_lt.mpr (by push_cast; linarith)
  have h3 : ((⌊100 * y + 1 / 2⌋ : ℤ) : ℚ) ≤ 0 := by exact_mod_cast (by omega : ⌊100 * y + 1 / 2⌋ ≤ 0)
  linarith

/-- Summing a per-element function plus a constant. -/
theorem sum_map_add_const {α : Type} (l : List α) (f : α → ℚ) (c : ℚ) :
    (l.map fun r => f r + c).sum = (l.map f).sum + (l.length : ℚ) * c := by
  induction l with
  | nil => simp
  | cons a t ih =>
    simp only [List.map_cons, List.sum_cons, List.length_cons, ih]
    push_cast
    ring

/-- Summing a per-element function times a constant. -/
theorem sum_map_mul_const {α : Type} (l : List α) (f : α → ℚ) (c : ℚ) :
    (l.map fun r => f r * c).sum = (l.map f).sum * c := by
  induction l with
  | nil => simp
  | cons a t ih =>
    simp only [List.map_cons, List.sum_cons, ih]
    ring

/-- Rounding each summand to 2 decimals moves the sum by at most
length / 200. -/
theorem sum_round2_err {α : Type} (l : List α) (g : α → ℚ) :
    |(l.map fun r => round2 (g r)).sum - (l.map g).sum| ≤ (l.length : ℚ) / 200 := by
  induction l with
  | nil => simp
  | cons a t ih =>
    simp only [List.map_cons, List.sum_cons, List.length_cons]
    have h := round2_err (g a)
    have htri :
        |round2 (g a) + (t.map fun r => round2 (g r)).sum - (g a + (t.map g).sum)| ≤
          |round2 (g a) - g a| + |(t.map fun r => round2 (g r)).sum - (t.map g).sum| := by
      have heq : round2 (g a) + (t.map fun r => round2 (g r)).sum - (g a + (t.map g).sum) =
          (round2 (g a) - g a) + ((t.map fun r => round2 (g r)).sum - (t.map g).sum) := by ring
      rw [heq]
      exact abs_add _ _
    push_cast
    linarith

/-- The reconciliation core: metered total plus the distributed bonus is
within N/200 + 1/200 of the purchased units. -/
theorem sumFinal_bound (rs : List TenantReading) (U : ℚ) (hN : 1 ≤ rs.length) :
    |totalUsed rs + (rs.length : ℚ) * bonusPerTenant rs U - U| ≤
      (rs.length : ℚ) / 200 + 1 / 200 := by
  have hN1 : (1 : ℚ) ≤ (rs.length : ℚ) := by exact_mod_cast hN
  have hN0 : (0 : ℚ) < (rs.length : ℚ) := by linarith
  have h1 : |unaccounted rs U - (U - totalUsed rs)| ≤ 1 / 200 := by
    unfold unaccounted; exact round2_err _
  have h2 : |bonusPerTenant rs U - unaccounted rs U / (rs.length : ℚ)| ≤ 1 / 200 := by
    unfold bonusPerTenant; exact round2_err _
  have h3 : (rs.length : ℚ) * bonusPerTenant rs U - unaccounted rs U =
      (rs.length : ℚ) * (bonusPerTenant rs U - unaccounted rs U / (rs.length : ℚ)) := by
    field_simp
    ring
  have h4 : |(rs.length : ℚ) * bonusPerTenant rs U - unaccounted rs U| ≤
      (rs.length : ℚ) / 200 := by
    rw [h3, abs_mul, abs_of_pos hN0]
    have := mul_le_mul_of_nonneg_left h2 (le_of_lt hN0)
    linarith
  have heq : totalUsed rs + (rs.length : ℚ) * bonusPerTenant rs U - U =
      ((rs.length : ℚ) * bonusPerTenant rs U - unaccounted rs U) +
        (unaccounted rs U - (U - totalUsed rs)) := by ring
  calc |totalUsed rs + (rs.length : ℚ) * bonusPerTenant rs U - U|
      ≤ |(rs.length : ℚ) * bonusPerTenant rs U - unaccounted rs U| +
          |unaccounted rs U - (U - totalUsed rs)| := by rw [heq]; exact abs_add _ _
    _ ≤ (rs.length : ℚ) / 200 + 1 / 200 := add_le_add h4 h1

/-- The used column of the results is the rounded per-tenant usage. -/
theorem results_map_used (rs : List TenantReading) (U A : ℚ) :
    (results rs U A).map (fun c => c.used) = rs.map usedOf := by
  simp [results, Function.comp]

/-- Every results row carries the same bonus value. -/
theorem results_map_bonus (rs : List TenantReading) (U A : ℚ) :
    (results rs U A).map (fun c => c.bonus) = rs.map fun _ => bonusPerTenant rs U := by
  simp only [results, List.map_map]
  rfl

/-- The final-units column: the displayed re-rounding is the identity, so
it is exactly usage plus bonus. -/
theorem results_map_finalUnits (rs : List TenantReading) (U A : ℚ) :
    (results rs U A).map (fun c => c.finalUnits) =
      rs.map fun r => usedOf r + bonusPerTenant rs U := by
  simp only [results, List.map_map, Function.comp]
  exact List.map_congr_left fun r hr => round2_add_round2 _ _

/-- The bill column as a map over the store. -/
theorem results_map_bill (rs : List TenantReading) (U A : ℚ) :
    (results rs U A).map (fun c => c.bill) =
      rs.map fun r => round2 ((usedOf r + bonusPerTenant rs U) / U * A) := by
  simp [results, Function.comp]

/-- Any member of the results list has bonus `bonusPerTenant`. -/
theorem bonus_of_mem {rs : List TenantReading} {U A : ℚ} {c : CalculationResult}
    (hc : c ∈ results rs U A) : c.bonus = bonusPerTenant rs U := by
  obtain ⟨r, hr, heq⟩ := List.mem_map.mp hc
  rw [← heq]

/-- With pairwise-distinct ids, filtering one id away removes at most one
row. -/
theorem length_le_filter_id_ne (tid : String) (rs : List TenantReading)
    (hnd : (rs.map TenantReading.id).Nodup) :
    rs.length ≤ (rs.filter fun r => r.id ≠ tid).length + 1 := by
  induction rs with
  | nil => simp
  | cons r t ih =>
    simp only [List.map_cons, List.nodup_cons] at hnd
    obtain ⟨hnotin, hnd2⟩ := hnd
    rw [List.filter_cons]
    by_cases h : r.id = tid
    · have hcond : (decide (r.id ≠ tid)) = false := by simp [h]
      have hfeq : (t.filter fun q => q.id ≠ tid) = t := by
        rw [List.filter_eq_self]
        intro x hx
        simp only [ne_eq, decide_eq_true_eq]
        intro hxeq
        exact hnotin (List.mem_map.mpr ⟨x, hx, hxeq.trans h.symm⟩)
      rw [hcond]
      simp only [Bool.false_eq_true, if_false, hfeq, List.length_cons]
      omega
    · have hcond : (decide (r.id ≠ tid)) = true := by simp [h]
      have h2 := ih hnd2
      rw [hcond]
      simp only [if_true, List.length_cons]
      omega

/-! ## Claims -/

/-- C1 counterexample: with three tenants of usage 0.01 each against 0.02
purchased units, the unaccounted value is negative (-0.01) yet the bonus
propagated to every tenant is 0 — round2(-0.01 / 3) rounds to zero — so
the claim that a negative unaccounted value propagates a negative bonus
fails. -/
theorem C1_counterexample :
    unaccounted overReportStore 0.02 < 0 ∧
      (results overReportStore 0.02 100).map (fun c => c.bonus) = [0, 0, 0] ∧
      ¬ ∀ c ∈ results overReportStore 0.02 100, c.bonus < 0 := by
  refine ⟨?_, ?_, ?_⟩
  · norm_num [unaccounted, totalUsed, overReportStore, usedOf, round2, round_eq]
  · norm_num [results, bonusPerTenant, unaccounted, totalUsed,
      overReportStore, usedOf, round2, round_eq]
  · intro hall
    have hb : bonusPerTenant overReportStore 0.02 = 0 := by
      norm_num [bonusPerTenant, unaccounted, totalUsed, overReportStore,
        usedOf, round2, round_eq]
    have hlen : 0 < (results overReportStore 0.02 100).length := by
      simp [results, overReportStore]
    have hmem := List.get_mem (results overReportStore 0.02 100) 0 hlen
    have hlt := hall _ hmem
    rw [bonus_of_mem hmem, hb] at hlt
    exact lt_irrefl 0 hlt

/-- C1 amended: the allocation engine computes each step as claimed —
usage round2(current - previous), total metered usage as their sum,
unaccounted round2(purchased - total), bonus round2(unaccounted / N),
final units usage + bonus — and a negative unaccounted value is not
rejected but propagates a nonpositive bonus to every tenant (the bonus
rounds to zero when its magnitude divided by N is below 0.005). -/
theorem C1_allocation (rs : List TenantReading) (U A : ℚ)
    (hN : 1 ≤ rs.length) :
    (results rs U A).map (fun c => c.used) =
        rs.map (fun r => round2 (r.current - r.previous)) ∧
      totalUsed rs = ((results rs U A).map (fun c => c.used)).sum ∧
      unaccounted rs U = round2 (U - totalUsed rs) ∧
      bonusPerTenant rs U = round2 (unaccounted rs U / (rs.length : ℚ)) ∧
      (results rs U A).map (fun c => c.finalUnits) =
        (results rs U A).map (fun c => c.used + c.bonus) ∧
      (unaccounted rs U < 0 → ∀ c ∈ results rs U A, c.bonus ≤ 0) := by
  refine ⟨?_, ?_, rfl, rfl, ?_, ?_⟩
  · rw [results_map_used]
    rfl
  · rw [results_map_used]
    rfl
  · rw [results_map_finalUnits]
    simp only [results, List.map_map]
    rfl
  · intro hneg c hc
    rw [bonus_of_mem hc]
    unfold bonusPerTenant
    apply round2_nonpos
    apply div_nonpos_of_nonpos_of_nonneg (le_of_lt hneg)
    exact Nat.cast_nonneg _

/-- Witness for C1 amended at the initial store. -/
theorem C1_allocation_witness :
    (results initialReadings 52.8 12000).map (fun c => c.used) =
      initialReadings.map (fun r => round2 (r.current - r.previous)) :=
  (C1_allocation initialReadings 52.8 12000 (by decide)).1

/-- C2: the sum of the final billed units across all tenants equals the
purchased units within 0.01 times the number of tenants. -/
theorem C2_units_reconcile (rs : List TenantReading) (U A : ℚ)
    (hN : 1 ≤ rs.length) :
    |((results rs U A).map (fun c => c.finalUnits)).sum - U| ≤
      1 / 100 * (rs.length : ℚ) := by
  have hsum : ((results rs U A).map (fun c => c.finalUnits)).sum =
      totalUsed rs + (rs.length : ℚ) * bonusPerTenant rs U := by
    rw [results_map_finalUnits, sum_map_add_const]
    rfl
  rw [hsum]
  have h := sumFinal_bound rs U hN
  have hN1 : (1 : ℚ) ≤ (rs.length : ℚ) := by exact_mod_cast hN
  refine le_trans h ?_
  linarith

/-- Witness for C2 at the initial store. -/
theorem C2_units_reconcile_witness :
    |((results initialReadings 52.8 12000).map (fun c => c.finalUnits)).sum -
        52.8| ≤ 1 / 100 * (initialReadings.length : ℚ) :=
  C2_units_reconcile initialReadings 52.8 12000 (by decide)

/-- C3 counterexample: one tenant with zero metered usage against 0.015
purchased units and 12000 billed produces a single bill of 16000 — the
rounded bonus 0.02 exceeds the purchased 0.015, so the share is 4/3 —
which is 4000 away from the amount billed, far beyond the 0.01 × N
rounding tolerance. -/
theorem C3_counterexample :
    ((results zeroUsageStore 0.015 12000).map (fun c => c.bill)).sum = 16000 ∧
      ¬ |((results zeroUsageStore 0.015 12000).map (fun c => c.bill)).sum -
            12000| ≤ 1 / 100 * (zeroUsageStore.length : ℚ) := by
  have h : ((results zeroUsageStore 0.015 12000).map (fun c => c.bill)).sum =
      16000 := by
    norm_num [results, bonusPerTenant, unaccounted, totalUsed,
      zeroUsageStore, usedOf, round2, round_eq]
  refine ⟨h, ?_⟩
  rw [h]
  norm_num [zeroUsageStore]

/-- C3 amended: the sum of the computed bills equals the amount billed
within a tolerance that additionally scales with the unit price:
0.01 × N × (1 + |totalAmount / totalUnits|), provided the purchased units
are nonzero.  The per-bill rounding contributes 0.005 × N; the mismatch
between the purchased units and the sum of final units (up to 0.01 × N)
is multiplied by the unit price. -/
theorem C3_bills_reconcile (rs : List TenantReading) (U A : ℚ)
    (hN : 1 ≤ rs.length) (hU : U ≠ 0) :
    |((results rs U A).map (fun c => c.bill)).sum - A| ≤
      1 / 100 * (rs.length : ℚ) * (1 + |A / U|) := by
  have hN1 : (1 : ℚ) ≤ (rs.length : ℚ) := by exact_mod_cast hN
  rw [results_map_bill]
  have h1 := sum_round2_err rs fun r => (usedOf r + bonusPerTenant rs U) / U * A
  have h2 : (rs.map fun r => (usedOf r + bonusPerTenant rs U) / U * A).sum =
      (totalUsed rs + (rs.length : ℚ) * bonusPerTenant rs U) * (A / U) := by
    have heach : (rs.map fun r => (usedOf r + bonusPerTenant rs U) / U * A) =
        rs.map fun r => (usedOf r + bonusPerTenant rs U) * (A / U) :=
      List.map_congr_left fun r _ => by
        rw [div_mul_eq_mul_div, mul_div_assoc]
    rw [heach, sum_map_mul_const, sum_map_add_const]
    rfl
  rw [h2] at h1
  have hTU : |totalUsed rs + (rs.length : ℚ) * bonusPerTenant rs U - U| ≤
      (rs.length : ℚ) / 100 := by
    have h := sumFinal_bound rs U hN
    refine le_trans h ?_
    linarith
  have h3 : |(totalUsed rs + (rs.length : ℚ) * bonusPerTenant rs U) * (A / U) -
      A| ≤ |A / U| * ((rs.length : ℚ) / 100) := by
    have heq : (totalUsed rs + (rs.length : ℚ) * bonusPerTenant rs U) * (A / U) -
        A = (A / U) *
          (totalUsed rs + (rs.length : ℚ) * bonusPerTenant rs U - U) := by
      field_simp
      ring
    rw [heq, abs_mul]
    exact mul_le_mul_of_nonneg_left hTU (abs_nonneg _)
  have htri := abs_sub_le
    ((rs.map fun r => round2 ((usedOf r + bonusPerTenant rs U) / U * A)).sum)
    ((totalUsed rs + (rs.length : ℚ) * bonusPerTenant rs U) * (A / U)) A
  have habs : (0 : ℚ) ≤ |A / U| := abs_nonneg _
  nlinarith [h1, h3, htri, hN1, habs]

/-- Witness for C3 amended at the initial store. -/
theorem C3_bills_reconcile_witness :
    |((results initialReadings 52.8 12000).map (fun c => c.bill)).sum -
        12000| ≤
      1 / 100 * (initialReadings.length : ℚ) * (1 + |(12000 : ℚ) / 52.8|) :=
  C3_bills_reconcile initialReadings 52.8 12000 (by decide) (by norm_num)

/-- C4: with zero purchased units the computation does not reject the
input; the division by zero makes the unit price and every bill a
non-finite value (Infinity or NaN), and this non-finite value is what
reaches the displayed result table — no defined degenerate value or
distinct error state is surfaced. -/
theorem C4_zero_units_nonfinite :
    unitPriceJS 0 12000 = none ∧
      (resultsJS initialReadings 0 12000).map (fun c => c.bill) =
        [none, none] ∧
      (resultsJS initialReadings 0 12000).map (fun c => c.percentage) =
        [none, none] := by
  refine ⟨?_, ?_, ?_⟩
  · simp [unitPriceJS, jsDiv]
  · simp [resultsJS, initialReadings, jsDiv]
  · simp [resultsJS, initialReadings, jsDiv]

/-- C5 counterexample: the exact bills on the worked example are 7020.45
and 4979.55; the claimed approximations 7020.9 and 4979.1 are each 0.45
away, beyond agreement at the stated one-decimal precision. -/
theorem C5_counterexample :
    (results initialReadings 52.8 12000).map (fun c => c.bill) =
        [7020.45, 4979.55] ∧
      ¬ |(7020.45 : ℚ) - 7020.9| ≤ 1 / 20 ∧
      ¬ |(4979.55 : ℚ) - 4979.1| ≤ 1 / 20 := by
  refine ⟨?_, ?_, ?_⟩
  · norm_num [results, bonusPerTenant, unaccounted, totalUsed,
      initialReadings, usedOf, round2, round_eq]
  · intro habs
    rw [abs_le] at habs
    have h := habs.1
    norm_num at h
  · intro habs
    rw [abs_le] at habs
    have h := habs.2
    norm_num at h

/-- C5 amended: on the worked example the engine computes usage 29.08 and
20.10, total used 49.18, unaccounted 3.62, bonus 1.81 each, final units
30.89 and 21.91, displayed unit price 227.27, and bills 7020.45 and
4979.55. -/
theorem C5_worked_example :
    (results initialReadings 52.8 12000).map (fun c => c.used) =
        [29.08, 20.10] ∧
      totalUsed initialReadings = 49.18 ∧
      unaccounted initialReadings 52.8 = 3.62 ∧
      bonusPerTenant initialReadings 52.8 = 1.81 ∧
      (results initialReadings 52.8 12000).map (fun c => c.finalUnits) =
        [30.89, 21.91] ∧
      round2 (unitPrice 52.8 12000) = 227.27 ∧
      (results initialReadings 52.8 12000).map (fun c => c.bill) =
        [7020.45, 4979.55] := by
  refine ⟨?_, ?_, ?_, ?_, ?_, ?_, ?_⟩ <;>
    norm_num [results, unitPrice, bonusPerTenant, unaccounted, totalUsed,
      initialReadings, usedOf, round2, round_eq]


/-- C6: for every reading store with N ≥ 1 tenants and every bill
parameters, the bonus field of every row of the computed results is the
same value — the equal split round2(unaccounted / N), not proportional to
usage. -/
theorem C6_bonus_identical (rs : List TenantReading) (U A : ℚ)
    (hN : 1 ≤ rs.length) :
    ∀ c ∈ results rs U A,
      c.bonus = round2 (unaccounted rs U / (rs.length : ℚ)) :=
  fun _ hc => bonus_of_mem hc

/-- Witness for C6 at the initial store. -/
theorem C6_bonus_identical_witness :
    ((results initialReadings 52.8 12000).get
        ⟨0, by simp [results, initialReadings]⟩).bonus =
      round2 (unaccounted initialReadings 52.8 / (initialReadings.length : ℚ)) :=
  C6_bonus_identical initialReadings 52.8 12000 (by decide) _
    (List.get_mem _ _ _)

/-- C7: removing from a store with exactly one tenant is refused: the
destructive toast is reported and the store is returned unchanged. -/
theorem C7_remove_sole_refused (rs : List TenantReading) (tid : String)
    (h : rs.length = 1) :
    (removeTenant rs tid).1 = rs ∧
      (removeTenant rs tid).2 =
        some { title := "Cannot remove tenant"
               description := "At least one tenant is required."
               variant := some "destructive" } := by
  unfold removeTenant
  rw [h]
  simp

/-- Witness for C7 on a one-tenant store. -/
theorem C7_remove_sole_refused_witness :
    (removeTenant soleTenantStore "1").1 = soleTenantStore ∧
      (removeTenant soleTenantStore "1").2 =
        some { title := "Cannot remove tenant"
               description := "At least one tenant is required."
               variant := some "destructive" } :=
  C7_remove_sole_refused soleTenantStore "1" (by decide)

/-- C8 counterexample: the claim quantifies over every store with at least
one tenant, but with two rows sharing an identity — as two addTenant calls
in the same millisecond produce — a single remove deletes both rows and
empties the store. -/
theorem C8_counterexample :
    1 ≤ duplicateIdStore.length ∧
      (removeTenant duplicateIdStore "7").1 = [] := by
  constructor
  · decide
  · simp [removeTenant, duplicateIdStore]

/-- C8 amended: starting from a store with at least one tenant whose
identities are pairwise distinct, every operation leaves at least one
tenant. -/
theorem C8_store_nonempty (rs : List TenantReading) (h1 : 1 ≤ rs.length)
    (hnd : (rs.map TenantReading.id).Nodup) :
    (∀ now, 1 ≤ (addTenant rs now).length) ∧
      (∀ tid, 1 ≤ ((removeTenant rs tid).1).length) ∧
      (∀ tid u, 1 ≤ (updateReading rs tid u).length) := by
  refine ⟨?_, ?_, ?_⟩
  · intro now
    simp [addTenant]
  · intro tid
    unfold removeTenant
    by_cases hl : rs.length > 1
    · rw [if_pos hl]
      have h2 := length_le_filter_id_ne tid rs hnd
      simp only
      omega
    · rw [if_neg hl]
      exact h1
  · intro tid u
    simpa [updateReading] using h1

/-- Witness for C8 amended at the initial store. -/
theorem C8_store_nonempty_witness :
    1 ≤ ((removeTenant initialReadings "1").1).length :=
  (C8_store_nonempty initialReadings (by decide) (by decide)).2.1 "1"

/-- C9 counterexample: addTenant does not generate an identity distinct
from every existing one — with clock value 0 against a store whose tenant
already has id "0", the appended row duplicates the identity. -/
theorem C9_add_counterexample :
    (addTenant clashStore 0).map TenantReading.id = ["0", "0"] ∧
      ¬ ((addTenant clashStore 0).map TenantReading.id).Nodup := by
  constructor
  · decide
  · decide

/-- C9 amended: addTenant appends exactly one tenant at the end, with
identity the string form of the supplied clock value, default name
"Tenant X" with X the character at code 65 plus the list length, and zero
readings, leaving existing tenants unchanged; the new identity is distinct
from every existing identity exactly when the clock string is fresh, which
the code does not check. -/
theorem C9_add_appends (rs : List TenantReading) (now : Nat)
    (hfresh : toString now ∉ rs.map TenantReading.id) :
    (addTenant rs now).length = rs.length + 1 ∧
      (addTenant rs now).take rs.length = rs ∧
      (addTenant rs now).getLast? =
        some { id := toString now
               name := "Tenant ".push (Char.ofNat (65 + rs.length))
               previous := 0
               current := 0 } ∧
      ∀ r ∈ rs, r.id ≠ toString now := by
  refine ⟨?_, ?_, ?_, ?_⟩
  · simp [addTenant]
  · unfold addTenant
    exact List.take_left rs _
  · unfold addTenant
    exact List.getLast?_concat _
  · intro r hr heq
    exact hfresh (List.mem_map.mpr ⟨r, hr, heq⟩)

/-- Witness for C9 amended: adding at clock value 3 to the initial store. -/
theorem C9_add_appends_witness :
    (addTenant initialReadings 3).length = initialReadings.length + 1 :=
  (C9_add_appends initialReadings 3 (by decide)).1

/-- C10: update or remove with an identifier matching no tenant leaves the
store completely unchanged. -/
theorem C10_unmatched_id_noop (rs : List TenantReading) (tid : String)
    (h : ∀ r ∈ rs, r.id ≠ tid) :
    (∀ u, updateReading rs tid u = rs) ∧ (removeTenant rs tid).1 = rs := by
  constructor
  · intro u
    unfold updateReading
    calc rs.map (fun r => if r.id = tid then applyUpdate u r else r)
        = rs.map id := List.map_congr_left fun r hr => if_neg (h r hr)
      _ = rs := List.map_id rs
  · unfold removeTenant
    by_cases hl : rs.length > 1
    · rw [if_pos hl]
      simp only
      rw [List.filter_eq_self]
      intro r hr
      simp only [ne_eq, decide_eq_true_eq]
      exact h r hr
    · rw [if_neg hl]

/-- Witness for C10 with an id matching neither initial tenant. -/
theorem C10_unmatched_id_noop_witness :
    updateReading initialReadings "9" (.setName "Z") = initialReadings ∧
      (removeTenant initialReadings "9").1 = initialReadings :=
  ⟨(C10_unmatched_id_noop initialReadings "9" (by decide)).1 _,
   (C10_unmatched_id_noop initialReadings "9" (by decide)).2⟩

end MeterShare
